import Mathlib

/-
Verification development for the ChatFlow real-time chat server.

The definitions below are a shallow embedding of the Socket.IO event
handlers in `backend/server.js` together with the Room model methods in
`models/Room.js` and the typing-indicator display logic in
`frontend/script.js`.  JavaScript `Map`s are modelled as association
lists that preserve insertion order (as JS Maps do); Socket.IO room
membership is modelled as a list of (connectionId, roomId) pairs, with
`socket.join` adding a pair and the transport removing all of a
socket's pairs on disconnect.  Timestamps are naturals, event emission
is returned explicitly as a list of (target connection, event) pairs.
-/

namespace ChatFlow

/-- Session stored in the `activeUsers` map (server.js lines 99-104). -/
structure Session where
  userId : String
  username : String
  roomId : String
  joinedAt : Nat
deriving DecidableEq

/-- Durable user record, the fields touched by the socket handlers
(models/User.js, updated at server.js lines 110-119 and 319-326). -/
structure DbUser where
  username : String
  isOnline : Bool
  lastSeen : Nat
  socketId : Option String
deriving DecidableEq

/-- Room settings, the field relevant to the participant bound
(models/Room.js lines 45-49). -/
structure RoomSettings where
  maxParticipants : Nat
deriving DecidableEq

/-- Durable room record (models/Room.js). -/
structure DbRoom where
  roomId : String
  name : String
  description : String
  createdBy : String
  participants : List String
  admins : List String
  settings : RoomSettings
deriving DecidableEq

/-- Durable message record (models/Message.js): `roomId` is present for
room messages, `recipient` for private ones. -/
structure DbMessage where
  content : String
  sender : String
  roomId : Option String
  recipient : Option String
  mtype : String
  timestamp : Nat
deriving DecidableEq

/-- Full server state: the two in-memory maps of server.js line 80
(`activeUsers`) and the Socket.IO room membership, plus the durable
store collections. -/
structure ServerState where
  activeUsers : List (String × Session)
  socketRooms : List (String × String)
  dbUsers : List (String × DbUser)
  dbRooms : List DbRoom
  dbMessages : List DbMessage
deriving DecidableEq

/-- Empty server state (fresh process, empty database). -/
def stEmpty : ServerState := ⟨[], [], [], [], []⟩

/-- Lookup in an insertion-ordered map (JS `Map.get`). -/
def mapGet {α : Type} (m : List (String × α)) (k : String) : Option α :=
  match m with
  | [] => none
  | (k', v) :: rest => if k' = k then some v else mapGet rest k

/-- Update-or-append in an insertion-ordered map (JS `Map.set`): an
existing key keeps its position, a new key is appended. -/
def mapSet {α : Type} (m : List (String × α)) (k : String) (v : α) : List (String × α) :=
  match m with
  | [] => [(k, v)]
  | (k', v') :: rest => if k' = k then (k, v) :: rest else (k', v') :: mapSet rest k v

/-- Removal from an insertion-ordered map (JS `Map.delete`). -/
def mapDelete {α : Type} (m : List (String × α)) (k : String) : List (String × α) :=
  match m with
  | [] => []
  | (k', v) :: rest => if k' = k then mapDelete rest k else (k', v) :: mapDelete rest k

/-- Update the first entry with the given key, if any (Mongo
`findOneAndUpdate` without upsert on a unique index). -/
def mapUpdate {α : Type} (m : List (String × α)) (k : String) (f : α → α) : List (String × α) :=
  match m with
  | [] => []
  | (k', v) :: rest => if k' = k then (k', f v) :: rest else (k', v) :: mapUpdate rest k f

/-- Socket.IO `socket.join(roomId)`: adds the membership pair if absent
(joining a room the socket is already in is a no-op). -/
def roomJoin (sr : List (String × String)) (sid rid : String) : List (String × String) :=
  if (sid, rid) ∈ sr then sr else sr ++ [(sid, rid)]

/-- Transport-level cleanup on disconnect: Socket.IO removes the socket
from every room it was in. -/
def roomsLeaveAll (sr : List (String × String)) (sid : String) : List (String × String) :=
  match sr with
  | [] => []
  | (c, r) :: rest =>
      if c = sid then roomsLeaveAll rest sid else (c, r) :: roomsLeaveAll rest sid

/-- Connections currently in a Socket.IO room: the delivery target set
of `io.to(rid).emit`. -/
def connsIn (sr : List (String × String)) (rid : String) : List String :=
  match sr with
  | [] => []
  | (c, r) :: rest => if r = rid then c :: connsIn rest rid else connsIn rest rid

/-- Drop one connection from a target list: `socket.to(rid).emit`
delivers to the room members except the emitting socket. -/
def listExcept (l : List String) (sid : String) : List String :=
  match l with
  | [] => []
  | c :: rest => if c = sid then listExcept rest sid else c :: listExcept rest sid

/-- First room with the given roomId (Mongo `Room.findOne({roomId})`). -/
def findRoom (rooms : List DbRoom) (rid : String) : Option DbRoom :=
  match rooms with
  | [] => none
  | r :: rest => if r.roomId = rid then some r else findRoom rest rid

/-- Persist a room document: replace the document with the same roomId,
or append a new one. -/
def saveRoom (rooms : List DbRoom) (r : DbRoom) : List DbRoom :=
  match rooms with
  | [] => [r]
  | r' :: rest => if r'.roomId = r.roomId then r :: rest else r' :: saveRoom rest r

/-- Messages of one room (Mongo `Message.find({roomId})`). -/
def msgsInRoom (msgs : List DbMessage) (rid : String) : List DbMessage :=
  match msgs with
  | [] => []
  | m :: rest => if m.roomId = some rid then m :: msgsInRoom rest rid else msgsInRoom rest rid

/-- Insert into a timestamp-descending list (models the
`sort({timestamp: -1})` of the recent-messages query). -/
def insertByTsDesc (m : DbMessage) (l : List DbMessage) : List DbMessage :=
  match l with
  | [] => [m]
  | x :: xs => if x.timestamp ≤ m.timestamp then m :: x :: xs else x :: insertByTsDesc m xs

/-- Sort messages newest-first. -/
def sortByTsDesc (l : List DbMessage) : List DbMessage :=
  match l with
  | [] => []
  | x :: xs => insertByTsDesc x (sortByTsDesc xs)

/-- Online-user snapshot of a room, computed from the `activeUsers` map
(server.js lines 152-159): (userId, username, joinedAt) per session in
the room. -/
def onlineInRoom (au : List (String × Session)) (rid : String) : List (String × String × Nat) :=
  match au with
  | [] => []
  | (_, s) :: rest =>
      if s.roomId = rid then (s.userId, s.username, s.joinedAt) :: onlineInRoom rest rid
      else onlineInRoom rest rid

/-- First live session with the given userId, returning its
connectionId (server.js lines 270-271: scan of `activeUsers.entries()`
in insertion order). -/
def findByUserId (au : List (String × Session)) (uid : String) : Option String :=
  match au with
  | [] => none
  | (c, s) :: rest => if s.userId = uid then some c else findByUserId rest uid

/-- Whitespace-trimming as JS `String.prototype.trim` (leading and
trailing whitespace removed), on the character list of the string. -/
def jsTrim (s : String) : String :=
  String.mk (((s.data.dropWhile Char.isWhitespace).reverse.dropWhile Char.isWhitespace).reverse)

/-- Outbound events emitted by the socket handlers. -/
inductive OutEvent where
  | errorMsg (message : String)
  | joinSuccess (roomId roomName : String) (onlineUsers : List (String × String × Nat))
  | recentMessages (msgs : List DbMessage)
  | userJoined (userId username : String)
  | usersUpdate (users : List (String × String × Nat))
  | receiveMessage (content username userId : String) (timestamp : Nat) (mtype : String)
  | userTyping (userId username : String) (typing : Bool)
  | privateDelivery (content username userId : String) (timestamp : Nat)
  | messageSent
  | userLeft (userId username : String)
deriving DecidableEq

/-- Whether an outbound event is an `error` event. -/
def isErrorEvent : OutEvent → Bool
  | OutEvent.errorMsg _ => true
  | _ => false

/-- Whether any emission in a batch is an `error` event. -/
def hasError (emits : List (String × OutEvent)) : Bool :=
  match emits with
  | [] => false
  | (_, e) :: rest => isErrorEvent e || hasError rest

/-- Mongoose pre-save hook of the Room schema (models/Room.js lines
276-288): every save pushes `createdBy` into `participants` and
`admins` if absent. -/
def roomPreSave (r : DbRoom) : DbRoom :=
  { r with
    participants := if r.createdBy ∈ r.participants then r.participants
                    else r.participants ++ [r.createdBy],
    admins := if r.createdBy ∈ r.admins then r.admins else r.admins ++ [r.createdBy] }

/-- Room instance method `addParticipant` (models/Room.js lines
177-190): no-op if already a participant, rejects when the room is at
`settings.maxParticipants`, otherwise pushes and saves (the save runs
the pre-save hook). -/
def addParticipant (r : DbRoom) (userId : String) : Except String DbRoom :=
  if userId ∈ r.participants then Except.ok r
  else if r.settings.maxParticipants ≤ r.participants.length then
    Except.error "Room has reached maximum participant limit"
  else Except.ok (roomPreSave { r with participants := r.participants ++ [userId] })

/-- Store-layer invariant claimed by the spec for room documents:
creator is a participant and an admin, and the participant count is
within the configured bound. -/
def roomInv (r : DbRoom) : Prop :=
  r.createdBy ∈ r.participants ∧ r.createdBy ∈ r.admins ∧
  r.participants.length ≤ r.settings.maxParticipants

/-- The `join-room` handler (server.js lines 88-182), success path:
validate identity, store the session in `activeUsers`, `socket.join`,
upsert the user, find-or-create the room, push the user into the
room's participants (directly, then save), fetch recent messages, and
emit recent-messages / user-joined / users-update / join-success. -/
def joinRoom (st : ServerState) (sid userId username roomId : String) (now : Nat) :
    ServerState × List (String × OutEvent) :=
  if userId = "" ∨ username = "" then
    (st, [(sid, OutEvent.errorMsg "Invalid user data")])
  else
    let session : Session := ⟨userId, username, roomId, now⟩
    let au := mapSet st.activeUsers sid session
    let sr := roomJoin st.socketRooms sid roomId
    let du := mapSet st.dbUsers userId ⟨username, true, now, some sid⟩
    let roomAndRooms :=
      match findRoom st.dbRooms roomId with
      | some r => (r, st.dbRooms)
      | none =>
          let r := roomPreSave
            { roomId := roomId,
              name := if roomId = "general" then "General Chat" else roomId,
              description := "Real-time chat room",
              createdBy := userId,
              participants := [],
              admins := [],
              settings := ⟨100⟩ }
          (r, saveRoom st.dbRooms r)
    let room := roomAndRooms.1
    let rooms1 := roomAndRooms.2
    let room2AndRooms :=
      if userId ∈ room.participants then (room, rooms1)
      else
        let r := roomPreSave { room with participants := room.participants ++ [userId] }
        (r, saveRoom rooms1 r)
    let room2 := room2AndRooms.1
    let rooms2 := room2AndRooms.2
    let recent := ((sortByTsDesc (msgsInRoom st.dbMessages roomId)).take 50).reverse
    let conns := connsIn sr roomId
    let online := onlineInRoom au roomId
    let st' : ServerState :=
      { st with activeUsers := au, socketRooms := sr, dbUsers := du, dbRooms := rooms2 }
    (st',
      (if recent = [] then [] else [(sid, OutEvent.recentMessages recent)]) ++
      (listExcept conns sid).map (fun c => (c, OutEvent.userJoined userId username)) ++
      conns.map (fun c => (c, OutEvent.usersUpdate online)) ++
      [(sid, OutEvent.joinSuccess roomId room2.name online)])

/-- The `join-room` handler when the first awaited store call (the user
upsert, server.js line 110) throws: the mutations already performed at
that point — `activeUsers.set` (line 99) and `socket.join` (line 107)
— remain in place, and the catch block (lines 178-181) only emits an
error to the joining connection. -/
def joinRoomUpsertFails (st : ServerState) (sid userId username roomId : String) (now : Nat) :
    ServerState × List (String × OutEvent) :=
  if userId = "" ∨ username = "" then
    (st, [(sid, OutEvent.errorMsg "Invalid user data")])
  else
    ({ st with
        activeUsers := mapSet st.activeUsers sid ⟨userId, username, roomId, now⟩,
        socketRooms := roomJoin st.socketRooms sid roomId },
     [(sid, OutEvent.errorMsg "Failed to join room")])

/-- The `send-message` handler (server.js lines 185-236): requires a
live session, rejects empty-after-trim and over-1000-character
content, otherwise persists the trimmed message and broadcasts
`receive-message` via `io.to(roomId)` to every connection in the room.
The broadcast username comes from populating the sender's user
document; a missing user document makes the populate access throw into
the catch block after the save. -/
def sendMessage (st : ServerState) (sid content mtype : String) (now : Nat) :
    ServerState × List (String × OutEvent) :=
  match mapGet st.activeUsers sid with
  | none => (st, [(sid, OutEvent.errorMsg "User not authenticated")])
  | some u =>
    if jsTrim content = "" then
      (st, [(sid, OutEvent.errorMsg "Message content cannot be empty")])
    else if 1000 < content.length then
      (st, [(sid, OutEvent.errorMsg "Message too long")])
    else
      let msg : DbMessage :=
        ⟨jsTrim content, u.userId, some u.roomId, none, mtype, now⟩
      match mapGet st.dbUsers u.userId with
      | none =>
          ({ st with dbMessages := st.dbMessages ++ [msg] },
           [(sid, OutEvent.errorMsg "Failed to send message")])
      | some d =>
          ({ st with dbMessages := st.dbMessages ++ [msg] },
           (connsIn st.socketRooms u.roomId).map
             (fun c => (c, OutEvent.receiveMessage (jsTrim content) d.username u.userId now mtype)))

/-- The `typing-start` handler (server.js lines 239-248): if the
connection has a session, broadcast `user-typing{typing: true}` via
`socket.to(roomId)` (room members except the originator); otherwise do
nothing. -/
def typingStart (st : ServerState) (sid : String) :
    ServerState × List (String × OutEvent) :=
  match mapGet st.activeUsers sid with
  | none => (st, [])
  | some u =>
      (st, (listExcept (connsIn st.socketRooms u.roomId) sid).map
        (fun c => (c, OutEvent.userTyping u.userId u.username true)))

/-- The `typing-stop` handler (server.js lines 250-259): same as
`typing-start` with `typing: false`. -/
def typingStop (st : ServerState) (sid : String) :
    ServerState × List (String × OutEvent) :=
  match mapGet st.activeUsers sid with
  | none => (st, [])
  | some u =>
      (st, (listExcept (connsIn st.socketRooms u.roomId) sid).map
        (fun c => (c, OutEvent.userTyping u.userId u.username false)))

/-- The `private-message` handler (server.js lines 262-308): silent
return without a session; scan `activeUsers` for the first session of
the recipient userId; if found, persist the message with type
`private` and deliver to the recipient then confirm to the sender; if
not found, emit the offline error to the sender without persisting. -/
def privateMessage (st : ServerState) (sid recipientUserId content : String) (now : Nat) :
    ServerState × List (String × OutEvent) :=
  match mapGet st.activeUsers sid with
  | none => (st, [])
  | some sender =>
    match findByUserId st.activeUsers recipientUserId with
    | some rsid =>
        let msg : DbMessage :=
          ⟨content, sender.userId, none, some recipientUserId, "private", now⟩
        match mapGet st.dbUsers sender.userId with
        | none =>
            ({ st with dbMessages := st.dbMessages ++ [msg] },
             [(sid, OutEvent.errorMsg "Failed to send private message")])
        | some d =>
            ({ st with dbMessages := st.dbMessages ++ [msg] },
             [(rsid, OutEvent.privateDelivery content d.username sender.userId now),
              (sid, OutEvent.messageSent)])
    | none => (st, [(sid, OutEvent.errorMsg "User is offline")])

/-- The `disconnect` handler (server.js lines 311-356), together with
the transport's own removal of the socket from its rooms: without a
session it is a silent no-op; with one, the user document is marked
offline, the session is removed, and `user-left` plus `users-update`
are emitted via `socket.to(roomId)` to the remaining room members. -/
def disconnect (st : ServerState) (sid : String) (now : Nat) :
    ServerState × List (String × OutEvent) :=
  let sr := roomsLeaveAll st.socketRooms sid
  match mapGet st.activeUsers sid with
  | none => ({ st with socketRooms := sr }, [])
  | some u =>
      let du := mapUpdate st.dbUsers u.userId
        (fun d => { d with isOnline := false, lastSeen := now, socketId := none })
      let au := mapDelete st.activeUsers sid
      let conns := listExcept (connsIn sr u.roomId) sid
      let online := onlineInRoom au u.roomId
      ({ st with activeUsers := au, socketRooms := sr, dbUsers := du },
       conns.map (fun c => (c, OutEvent.userLeft u.userId u.username)) ++
       conns.map (fun c => (c, OutEvent.usersUpdate online)))

/-- Typing-indicator display text (frontend/script.js lines 254-273):
the typing users in insertion order, rendered per the 1 / 2 / 3-or-more
cases; an empty set hides the indicator. -/
def updateTypingDisplay (typingUsers : List String) : Option String :=
  match typingUsers with
  | [] => none
  | [x] => some (x ++ " is typing...")
  | [x, y] => some (x ++ " and " ++ y ++ " are typing...")
  | x :: y :: rest =>
      some (x ++ ", " ++ y ++ " and " ++ toString rest.length ++ " others are typing...")

/-- Join and disconnect events for trace-level reasoning. -/
inductive ChatEvent where
  | join (sid userId username roomId : String) (now : Nat)
  | disc (sid : String) (now : Nat)
deriving DecidableEq

/-- One step of the server: run the corresponding handler and keep the
state. -/
def step (st : ServerState) : ChatEvent → ServerState
  | ChatEvent.join sid u un r t => (joinRoom st sid u un r t).1
  | ChatEvent.disc sid t => (disconnect st sid t).1

/-- Run a sequence of events from a state. -/
def run (st : ServerState) (evs : List ChatEvent) : ServerState :=
  evs.foldl step st

/-- Well-formed traces: every join carries a non-empty identity and
lands on a connection that has no live session at that moment (the
spec's leave-then-join discipline); disconnects are unconstrained. -/
inductive OkSeq : ServerState → List ChatEvent → Prop where
  | nil (st : ServerState) : OkSeq st []
  | join (st : ServerState) (sid u un r : String) (t : Nat) (evs : List ChatEvent)
      (hu : u ≠ "") (hn : un ≠ "")
      (hfree : mapGet st.activeUsers sid = none)
      (htail : OkSeq (step st (ChatEvent.join sid u un r t)) evs) :
      OkSeq st (ChatEvent.join sid u un r t :: evs)
  | disc (st : ServerState) (sid : String) (t : Nat) (evs : List ChatEvent)
      (htail : OkSeq (step st (ChatEvent.disc sid t)) evs) :
      OkSeq st (ChatEvent.disc sid t :: evs)

/-- Registry/Directory agreement: the delivery target set of every room
equals the set of connections holding a live session in that room, and
no connection sits in two rooms' target sets. -/
def goodRegistry (st : ServerState) : Prop :=
  (∀ c r, c ∈ connsIn st.socketRooms r ↔
    ∃ s, mapGet st.activeUsers c = some s ∧ s.roomId = r) ∧
  (∀ c r r', c ∈ connsIn st.socketRooms r → c ∈ connsIn st.socketRooms r' → r = r')

/-- Core agreement between the Socket.IO room membership pairs and the
Presence Directory: a membership pair exists exactly for the live
session of its connection. -/
def registryAgrees (st : ServerState) : Prop :=
  ∀ c r, (c, r) ∈ st.socketRooms ↔
    ∃ s, mapGet st.activeUsers c = some s ∧ s.roomId = r

/-- Behaviour of `send-message` for a connection with a live session
(the property bundle of claim C4). -/
def sendMessageSpec (st : ServerState) (sid : String) (s : Session) (d : DbUser) (now : Nat) : Prop :=
  (∀ content mtype, jsTrim content = "" →
    sendMessage st sid content mtype now =
      (st, [(sid, OutEvent.errorMsg "Message content cannot be empty")])) ∧
  (∀ content mtype, jsTrim content ≠ "" → content.length = 1001 →
    sendMessage st sid content mtype now =
      (st, [(sid, OutEvent.errorMsg "Message too long")])) ∧
  (∀ content mtype, jsTrim content ≠ "" → content.length = 1000 →
    (sendMessage st sid content mtype now).1.dbMessages =
      st.dbMessages ++ [⟨jsTrim content, s.userId, some s.roomId, none, mtype, now⟩] ∧
    (sendMessage st sid content mtype now).2 =
      (connsIn st.socketRooms s.roomId).map
        (fun c => (c, OutEvent.receiveMessage (jsTrim content) d.username s.userId now mtype)) ∧
    (sid, OutEvent.receiveMessage (jsTrim content) d.username s.userId now mtype) ∈
      (sendMessage st sid content mtype now).2)

/-- Behaviour of the typing handlers for a connection with a live
session (the property bundle of claim C7): no state change, delivery
exactly to the other connections of the session's room, and never to
the originator. -/
def typingSpec (st : ServerState) (sid : String) (s : Session) : Prop :=
  (typingStart st sid).1 = st ∧ (typingStop st sid).1 = st ∧
  (∀ c, (c, OutEvent.userTyping s.userId s.username true) ∈ (typingStart st sid).2 ↔
    (c ∈ connsIn st.socketRooms s.roomId ∧ c ≠ sid)) ∧
  (∀ c, (c, OutEvent.userTyping s.userId s.username false) ∈ (typingStop st sid).2 ↔
    (c ∈ connsIn st.socketRooms s.roomId ∧ c ≠ sid)) ∧
  (∀ p, p ∈ (typingStart st sid).2 → p.1 ≠ sid) ∧
  (∀ p, p ∈ (typingStop st sid).2 → p.1 ≠ sid)

/-- Concrete state with one connection (`c1`, alice) joined to room
`general`, used to exercise the theorems on concrete inputs. -/
def stAlice : ServerState :=
  (joinRoom stEmpty "c1" "u1" "alice" "general" 0).1

/-- Concrete state with two connections (`c1` alice, `c2` bob) in room
`general`. -/
def stTwo : ServerState :=
  (joinRoom stAlice "c2" "u2" "bob" "general" 1).1

/-- Concrete room at its participant bound: created by `u0` with
`maxParticipants = 2` (the REST create-room endpoint accepts
`settings.maxParticipants` down to 2), filled up by `u7` through
`addParticipant`. -/
def roomFull : DbRoom :=
  ⟨"r1", "Room One", "", "u0", ["u0", "u7"], ["u0"], ⟨2⟩⟩

/-- Concrete state whose durable store holds the full room `r1`. -/
def stRoomFull : ServerState :=
  { stEmpty with dbRooms := [roomFull] }

/-- Concrete well-formed trace: two distinct connections join
`general`, then the first disconnects. -/
def evsOk : List ChatEvent :=
  [ChatEvent.join "c1" "u1" "alice" "general" 0,
   ChatEvent.join "c2" "u2" "bob" "general" 1,
   ChatEvent.disc "c1" 2]

/-- Concrete trace where connection `c1` joins room `A` and then joins
room `B` without disconnecting, while `c2` stays in `A`. -/
def evsDouble : List ChatEvent :=
  [ChatEvent.join "c2" "u2" "bob" "A" 0,
   ChatEvent.join "c1" "u1" "alice" "A" 1,
   ChatEvent.join "c1" "u1" "alice" "B" 2]

/-- State reached by `evsDouble`. -/
def stDouble : ServerState :=
  run stEmpty evsDouble

/-- String of 1000 repeated characters. -/
def str1000 : String := String.mk (List.replicate 1000 (Char.ofNat 97))

/-- String of 1001 repeated characters. -/
def str1001 : String := String.mk (List.replicate 1001 (Char.ofNat 97))

end ChatFlow

namespace ChatFlow

theorem mapGet_mapSet_self {α : Type} (m : List (String × α)) (k : String) (v : α) :
    mapGet (mapSet m k v) k = some v := by
  induction m with
  | nil => simp [mapSet, mapGet]
  | cons p rest ih =>
      obtain ⟨k', v'⟩ := p
      by_cases h : k' = k
      · simp [mapSet, mapGet, h]
      · simp [mapSet, mapGet, h, ih]

theorem mapGet_mapSet_ne {α : Type} (m : List (String × α)) (k k' : String) (v : α)
    (h : k' ≠ k) : mapGet (mapSet m k v) k' = mapGet m k' := by
  have h' : k ≠ k' := Ne.symm h
  induction m with
  | nil => simp [mapSet, mapGet, h']
  | cons p rest ih =>
      obtain ⟨k0, v0⟩ := p
      by_cases h0 : k0 = k
      · subst h0
        simp [mapSet, mapGet, h']
      · by_cases h1 : k0 = k'
        · simp [mapSet, mapGet, h0, h1, h]
        · simp [mapSet, mapGet, h0, h1, ih]

theorem mapGet_mapDelete_self {α : Type} (m : List (String × α)) (k : String) :
    mapGet (mapDelete m k) k = none := by
  induction m with
  | nil => simp [mapDelete, mapGet]
  | cons p rest ih =>
      obtain ⟨k', v⟩ := p
      by_cases h : k' = k
      · simp [mapDelete, h, ih]
      · simp [mapDelete, mapGet, h, ih]

theorem roomsLeaveAll_idem (sr : List (String × String)) (sid : String) :
    roomsLeaveAll (roomsLeaveAll sr sid) sid = roomsLeaveAll sr sid := by
  induction sr with
  | nil => simp [roomsLeaveAll]
  | cons p rest ih =>
      obtain ⟨c, r⟩ := p
      by_cases h : c = sid
      · simp [roomsLeaveAll, h, ih]
      · simp [roomsLeaveAll, h, ih]

/-- C6: disconnecting the same connection twice yields the same final
state (session map, Socket.IO rooms, and durable records) as
disconnecting it once, and the second disconnect emits nothing. -/
theorem disconnect_idempotent (st : ServerState) (sid : String) (t1 t2 : Nat) :
    disconnect (disconnect st sid t1).1 sid t2 = ((disconnect st sid t1).1, []) := by
  cases h : mapGet st.activeUsers sid with
  | none =>
      simp [disconnect, h, roomsLeaveAll_idem]
  | some u =>
      simp [disconnect, h, roomsLeaveAll_idem, mapGet_mapDelete_self]

/-- C10: a typing-start, typing-stop, or private-message event on a
connection with no registered session is a silent no-op: no state
change and no emission of any kind. -/
theorem noSession_silent (st : ServerState) (sid rid content : String) (now : Nat)
    (h : mapGet st.activeUsers sid = none) :
    typingStart st sid = (st, []) ∧ typingStop st sid = (st, []) ∧
    privateMessage st sid rid content now = (st, []) := by
  refine ⟨?_, ?_, ?_⟩ <;> simp [typingStart, typingStop, privateMessage, h]

theorem noSession_silent_witness :
    mapGet stEmpty.activeUsers "c9" = none ∧
    (typingStart stEmpty "c9" = (stEmpty, []) ∧ typingStop stEmpty "c9" = (stEmpty, []) ∧
     privateMessage stEmpty "c9" "u2" "hi" 0 = (stEmpty, [])) :=
  ⟨by decide, noSession_silent stEmpty "c9" "u2" "hi" 0 (by decide)⟩

/-- C8: the typing-indicator text over the typers in insertion order is
"X is typing..." for one typer, "X and Y are typing..." for two, and
"X, Y and N-2 others are typing..." for three or more, so that
Alice, Bob, Carol render as "Alice, Bob and 1 others are typing...". -/
theorem updateTypingDisplay_spec :
    updateTypingDisplay ["Alice"] = some "Alice is typing..." ∧
    updateTypingDisplay ["Alice", "Bob"] = some "Alice and Bob are typing..." ∧
    updateTypingDisplay ["Alice", "Bob", "Carol"] = some "Alice, Bob and 1 others are typing..." ∧
    ∀ (x y z : String) (rest : List String),
      updateTypingDisplay (x :: y :: z :: rest) =
        some (x ++ ", " ++ y ++ " and " ++ toString (rest.length + 1) ++
          " others are typing...") := by
  refine ⟨by decide, by decide, by decide, ?_⟩
  intro x y z rest
  simp [updateTypingDisplay]

theorem mem_listExcept (l : List String) (x c : String) :
    c ∈ listExcept l x ↔ (c ∈ l ∧ c ≠ x) := by
  induction l with
  | nil => simp [listExcept]
  | cons a rest ih =>
      simp only [listExcept]
      split
      case isTrue hax =>
        subst hax
        rw [ih]
        simp only [List.mem_cons]
        constructor
        · rintro ⟨hc, hcx⟩
          exact ⟨Or.inr hc, hcx⟩
        · rintro ⟨(rfl | hc), hcx⟩
          · exact absurd rfl hcx
          · exact ⟨hc, hcx⟩
      case isFalse hax =>
        simp only [List.mem_cons, ih]
        constructor
        · rintro (rfl | ⟨hc, hcx⟩)
          · exact ⟨Or.inl rfl, hax⟩
          · exact ⟨Or.inr hc, hcx⟩
        · rintro ⟨(rfl | hc), hcx⟩
          · exact Or.inl rfl
          · exact Or.inr ⟨hc, hcx⟩

theorem mem_connsIn (sr : List (String × String)) (rid c : String) :
    c ∈ connsIn sr rid ↔ (c, rid) ∈ sr := by
  induction sr with
  | nil => simp [connsIn]
  | cons p rest ih =>
      obtain ⟨c0, r0⟩ := p
      simp only [connsIn]
      split
      case isTrue hr =>
        subst hr
        simp only [List.mem_cons, ih]
        constructor
        · rintro (rfl | hc)
          · exact Or.inl rfl
          · exact Or.inr hc
        · rintro (he | hc)
          · injection he with h1 h2
            exact Or.inl h1
          · exact Or.inr hc
      case isFalse hr =>
        rw [ih]
        simp only [List.mem_cons]
        constructor
        · intro hc
          exact Or.inr hc
        · rintro (he | hc)
          · injection he with h1 h2
            exact absurd h2.symm hr
          · exact hc

theorem hasError_append (a b : List (String × OutEvent)) :
    hasError (a ++ b) = (hasError a || hasError b) := by
  induction a with
  | nil => simp [hasError]
  | cons p rest ih =>
      obtain ⟨c, e⟩ := p
      simp [hasError, ih, Bool.or_assoc]

theorem hasError_map_const (l : List String) (e : OutEvent)
    (he : isErrorEvent e = false) :
    hasError (l.map (fun c => (c, e))) = false := by
  induction l with
  | nil => simp [hasError]
  | cons c rest ih => simp [hasError, he, ih]

theorem joinRoom_valid_activeUsers (st : ServerState) (sid u un r : String) (t : Nat)
    (hu : u ≠ "") (hn : un ≠ "") :
    (joinRoom st sid u un r t).1.activeUsers = mapSet st.activeUsers sid ⟨u, un, r, t⟩ := by
  unfold joinRoom
  rw [if_neg (by simp [hu, hn])]

theorem joinRoom_valid_socketRooms (st : ServerState) (sid u un r : String) (t : Nat)
    (hu : u ≠ "") (hn : un ≠ "") :
    (joinRoom st sid u un r t).1.socketRooms = roomJoin st.socketRooms sid r := by
  unfold joinRoom
  rw [if_neg (by simp [hu, hn])]

theorem joinRoom_valid_noError (st : ServerState) (sid u un r : String) (t : Nat)
    (hu : u ≠ "") (hn : un ≠ "") :
    hasError (joinRoom st sid u un r t).2 = false := by
  unfold joinRoom
  rw [if_neg (by simp [hu, hn])]
  simp only [hasError_append, hasError_map_const, hasError, isErrorEvent, Bool.or_false,
    Bool.or_self]
  split
  · rfl
  · rfl

/-- C2 (amended): a private message whose recipient has no live session
makes the sender receive the offline error, and nothing else happens —
in particular the message is NOT persisted to the durable store. -/
theorem privateMessage_offline (st : ServerState) (sid rid content : String) (now : Nat)
    (s : Session)
    (h : mapGet st.activeUsers sid = some s)
    (hoff : findByUserId st.activeUsers rid = none) :
    privateMessage st sid rid content now =
      (st, [(sid, OutEvent.errorMsg "User is offline")]) := by
  simp [privateMessage, h, hoff]

theorem privateMessage_offline_witness :
    mapGet stAlice.activeUsers "c1" = some ⟨"u1", "alice", "general", 0⟩ ∧
    findByUserId stAlice.activeUsers "carol" = none ∧
    privateMessage stAlice "c1" "carol" "hi" 5 =
      (stAlice, [("c1", OutEvent.errorMsg "User is offline")]) :=
  ⟨by decide, by decide,
   privateMessage_offline stAlice "c1" "carol" "hi" 5 ⟨"u1", "alice", "general", 0⟩
     (by decide) (by decide)⟩

/-- C2 (counterexample): with alice live and no session for carol, the
private-message handler emits only the offline error and the durable
message store stays empty — the message is not persisted, contrary to
the claim. -/
theorem privateMessage_offline_drops :
    (privateMessage stAlice "c1" "carol" "hi" 5).2 =
      [("c1", OutEvent.errorMsg "User is offline")] ∧
    (privateMessage stAlice "c1" "carol" "hi" 5).1.dbMessages = [] := by
  decide

/-- C5 (amended): a second join on a connection that already holds a
live session does not fail: it emits no error event and overwrites the
session with the new identity, room, and join time. -/
theorem joinRoom_overwrites (st : ServerState) (sid u un r : String) (t : Nat) (s0 : Session)
    (h : mapGet st.activeUsers sid = some s0) (hu : u ≠ "") (hn : un ≠ "") :
    mapGet (joinRoom st sid u un r t).1.activeUsers sid = some ⟨u, un, r, t⟩ ∧
    hasError (joinRoom st sid u un r t).2 = false := by
  refine ⟨?_, joinRoom_valid_noError st sid u un r t hu hn⟩
  rw [joinRoom_valid_activeUsers st sid u un r t hu hn]
  exact mapGet_mapSet_self st.activeUsers sid ⟨u, un, r, t⟩

theorem joinRoom_overwrites_witness :
    mapGet stAlice.activeUsers "c1" = some ⟨"u1", "alice", "general", 0⟩ ∧
    ("u1" : String) ≠ "" ∧ ("alice" : String) ≠ "" ∧
    (mapGet (joinRoom stAlice "c1" "u1" "alice" "roomB" 3).1.activeUsers "c1" =
       some ⟨"u1", "alice", "roomB", 3⟩ ∧
     hasError (joinRoom stAlice "c1" "u1" "alice" "roomB" 3).2 = false) :=
  ⟨by decide, by decide, by decide,
   joinRoom_overwrites stAlice "c1" "u1" "alice" "roomB" 3 ⟨"u1", "alice", "general", 0⟩
     (by decide) (by decide) (by decide)⟩

/-- C5 (counterexample): connection c1, already holding a live session
in room general, joins again; the handler emits no error at all (so no
AlreadyRegistered failure) and the stored session changes to the new
room — the existing session is not left unchanged. -/
theorem joinRoom_rejoin_succeeds :
    mapGet stAlice.activeUsers "c1" = some ⟨"u1", "alice", "general", 0⟩ ∧
    hasError (joinRoom stAlice "c1" "u1" "alice" "roomB" 3).2 = false ∧
    mapGet (joinRoom stAlice "c1" "u1" "alice" "roomB" 3).1.activeUsers "c1" =
      some ⟨"u1", "alice", "roomB", 3⟩ := by
  decide

/-- C7: with a live session, typing-start and typing-stop change no
state (nothing is persisted) and deliver the user-typing event to
exactly the other connections of the session's room, never to the
originating connection. -/
theorem typing_selfSuppressed (st : ServerState) (sid : String) (s : Session)
    (h : mapGet st.activeUsers sid = some s) : typingSpec st sid s := by
  refine ⟨?_, ?_, ?_, ?_, ?_, ?_⟩
  · simp [typingStart, h]
  · simp [typingStop, h]
  · intro c
    simp [typingStart, h, mem_listExcept]
  · intro c
    simp [typingStop, h, mem_listExcept]
  · intro p hp
    simp only [typingStart, h] at hp
    obtain ⟨a, ha, rfl⟩ := List.mem_map.mp hp
    exact ((mem_listExcept _ _ _).mp ha).2
  · intro p hp
    simp only [typingStop, h] at hp
    obtain ⟨a, ha, rfl⟩ := List.mem_map.mp hp
    exact ((mem_listExcept _ _ _).mp ha).2

theorem typing_selfSuppressed_witness :
    mapGet stTwo.activeUsers "c1" = some ⟨"u1", "alice", "general", 0⟩ ∧
    typingSpec stTwo "c1" ⟨"u1", "alice", "general", 0⟩ :=
  ⟨by decide,
   typing_selfSuppressed stTwo "c1" ⟨"u1", "alice", "general", 0⟩ (by decide)⟩

/-- C3: when the user-upsert store call fails during a join, the catch
block surfaces the error without rolling back the registration: the
Presence Directory (`activeUsers`) still holds the session for the
failed connection. -/
theorem joinFailure_orphan :
    mapGet (joinRoomUpsertFails stEmpty "c1" "u1" "alice" "general" 0).1.activeUsers "c1" =
      some ⟨"u1", "alice", "general", 0⟩ ∧
    (joinRoomUpsertFails stEmpty "c1" "u1" "alice" "general" 0).2 =
      [("c1", OutEvent.errorMsg "Failed to join room")] := by
  decide

/-- C4: for a connection with a live session, content that trims to
empty fails with the empty-content error and causes zero broadcasts;
1001-character content (that is not all whitespace) fails with the
too-long error and causes zero broadcasts; 1000-character content
succeeds, is persisted trimmed, and is then broadcast as
receive-message to every connection in the room, the sender included. -/
theorem sendMessage_validation (st : ServerState) (sid : String) (s : Session) (d : DbUser)
    (now : Nat)
    (h : mapGet st.activeUsers sid = some s)
    (hd : mapGet st.dbUsers s.userId = some d)
    (hmem : sid ∈ connsIn st.socketRooms s.roomId) :
    sendMessageSpec st sid s d now := by
  refine ⟨?_, ?_, ?_⟩
  · intro content mtype hc
    simp [sendMessage, h, hc]
  · intro content mtype hc hlen
    have hgt : (1000 : Nat) < content.length := by omega
    simp [sendMessage, h, hc, hgt]
  · intro content mtype hc hlen
    have hnlt : ¬ (1000 : Nat) < content.length := by omega
    have e : sendMessage st sid content mtype now =
        ({ st with dbMessages :=
             st.dbMessages ++ [⟨jsTrim content, s.userId, some s.roomId, none, mtype, now⟩] },
         (connsIn st.socketRooms s.roomId).map
           (fun c => (c, OutEvent.receiveMessage (jsTrim content) d.username s.userId now mtype))) := by
      simp [sendMessage, h, hc, hnlt, hd]
    refine ⟨by rw [e], by rw [e], ?_⟩
    rw [e]
    exact List.mem_map.mpr ⟨sid, hmem, rfl⟩

theorem sendMessage_validation_witness :
    mapGet stAlice.activeUsers "c1" = some ⟨"u1", "alice", "general", 0⟩ ∧
    mapGet stAlice.dbUsers "u1" = some ⟨"alice", true, 0, some "c1"⟩ ∧
    "c1" ∈ connsIn stAlice.socketRooms "general" ∧
    sendMessageSpec stAlice "c1" ⟨"u1", "alice", "general", 0⟩ ⟨"alice", true, 0, some "c1"⟩ 5 :=
  ⟨by decide, by decide, by decide,
   sendMessage_validation stAlice "c1" ⟨"u1", "alice", "general", 0⟩
     ⟨"alice", true, 0, some "c1"⟩ 5 (by decide) (by decide) (by decide)⟩

/-- C9 (amended): the Room model's own `addParticipant` method
preserves the store invariant — it rejects an add that would exceed
`settings.maxParticipants`, and the pre-save hook keeps the creator in
both `participants` and `admins`. -/
theorem addParticipant_preserves (r r' : DbRoom) (u : String)
    (hinv : roomInv r) (hok : addParticipant r u = Except.ok r') : roomInv r' := by
  obtain ⟨h1, h2, h3⟩ := hinv
  unfold addParticipant at hok
  split at hok
  case isTrue hmem =>
    injection hok with hr
    subst hr
    exact ⟨h1, h2, h3⟩
  case isFalse hmem =>
    split at hok
    case isTrue hfull => simp at hok
    case isFalse hfull =>
      injection hok with hr
      subst hr
      have hcb : r.createdBy ∈ r.participants ++ [u] := List.mem_append.mpr (Or.inl h1)
      refine ⟨?_, ?_, ?_⟩
      · simp [roomPreSave, hcb]
      · simp [roomPreSave, hcb, h2]
      · simp only [roomPreSave, if_pos hcb, if_pos h2, List.length_append,
          List.length_singleton]
        omega

theorem addParticipant_preserves_witness :
    roomInv (⟨"r2", "Room Two", "", "u0", ["u0"], ["u0"], ⟨2⟩⟩ : DbRoom) ∧
    addParticipant (⟨"r2", "Room Two", "", "u0", ["u0"], ["u0"], ⟨2⟩⟩ : DbRoom) "u1" =
      Except.ok ⟨"r2", "Room Two", "", "u0", ["u0", "u1"], ["u0"], ⟨2⟩⟩ ∧
    roomInv (⟨"r2", "Room Two", "", "u0", ["u0", "u1"], ["u0"], ⟨2⟩⟩ : DbRoom) :=
  ⟨by unfold roomInv; decide, by rfl,
   addParticipant_preserves ⟨"r2", "Room Two", "", "u0", ["u0"], ["u0"], ⟨2⟩⟩
     ⟨"r2", "Room Two", "", "u0", ["u0", "u1"], ["u0"], ⟨2⟩⟩ "u1"
     (by unfold roomInv; decide) (by rfl)⟩

/-- C9 (counterexample): the socket join path pushes the participant
directly and saves without the capacity check: joining the full room
`r1` (two participants, `maxParticipants = 2`) emits no error and
leaves the room with three participants, violating the bound. -/
theorem joinRoom_exceeds_capacity :
    roomFull.participants.length = 2 ∧ roomFull.settings.maxParticipants = 2 ∧
    hasError (joinRoom stRoomFull "c3" "u9" "carl" "r1" 0).2 = false ∧
    (findRoom (joinRoom stRoomFull "c3" "u9" "carl" "r1" 0).1.dbRooms "r1").map
        (fun rm => rm.participants) = some ["u0", "u7", "u9"] ∧
    (findRoom (joinRoom stRoomFull "c3" "u9" "carl" "r1" 0).1.dbRooms "r1").map
        (fun rm => rm.settings.maxParticipants) = some 2 := by
  decide

theorem mapGet_mapDelete_ne {α : Type} (m : List (String × α)) (k k' : String)
    (h : k' ≠ k) : mapGet (mapDelete m k) k' = mapGet m k' := by
  induction m with
  | nil => simp [mapDelete, mapGet]
  | cons p rest ih =>
      obtain ⟨k0, v0⟩ := p
      by_cases h0 : k0 = k
      · subst h0
        simp [mapDelete, mapGet, Ne.symm h, ih]
      · simp only [mapDelete, if_neg h0, mapGet]
        split
        · rfl
        · exact ih

theorem mem_roomJoin (sr : List (String × String)) (sid rid c r : String) :
    (c, r) ∈ roomJoin sr sid rid ↔ ((c, r) ∈ sr ∨ (c = sid ∧ r = rid)) := by
  unfold roomJoin
  split
  case isTrue hmem =>
    constructor
    · exact Or.inl
    · rintro (hc | ⟨rfl, rfl⟩)
      · exact hc
      · exact hmem
  case isFalse hmem =>
    simp only [List.mem_append, List.mem_singleton]
    constructor
    · rintro (hc | he)
      · exact Or.inl hc
      · injection he with h1 h2
        exact Or.inr ⟨h1, h2⟩
    · rintro (hc | ⟨rfl, rfl⟩)
      · exact Or.inl hc
      · exact Or.inr rfl

theorem mem_roomsLeaveAll (sr : List (String × String)) (sid c r : String) :
    (c, r) ∈ roomsLeaveAll sr sid ↔ ((c, r) ∈ sr ∧ c ≠ sid) := by
  induction sr with
  | nil => simp [roomsLeaveAll]
  | cons p rest ih =>
      obtain ⟨c0, r0⟩ := p
      simp only [roomsLeaveAll]
      split
      case isTrue h0 =>
        subst h0
        rw [ih]
        simp only [List.mem_cons]
        constructor
        · rintro ⟨hc, hcs⟩
          exact ⟨Or.inr hc, hcs⟩
        · rintro ⟨(he | hc), hcs⟩
          · injection he with hh1 hh2
            exact absurd hh1 hcs
          · exact ⟨hc, hcs⟩
      case isFalse h0 =>
        simp only [List.mem_cons, ih]
        constructor
        · rintro (he | ⟨hc, hcs⟩)
          · injection he with hh1 hh2
            subst hh1
            exact ⟨Or.inl (by rw [hh2]), h0⟩
          · exact ⟨Or.inr hc, hcs⟩
        · rintro ⟨(he | hc), hcs⟩
          · exact Or.inl he
          · exact Or.inr ⟨hc, hcs⟩

theorem disconnect_fst_none (st : ServerState) (sid : String) (t : Nat)
    (h : mapGet st.activeUsers sid = none) :
    (disconnect st sid t).1 =
      { st with socketRooms := roomsLeaveAll st.socketRooms sid } := by
  simp [disconnect, h]

theorem disconnect_fst_some (st : ServerState) (sid : String) (t : Nat) (u : Session)
    (h : mapGet st.activeUsers sid = some u) :
    (disconnect st sid t).1 =
      { st with
        activeUsers := mapDelete st.activeUsers sid,
        socketRooms := roomsLeaveAll st.socketRooms sid,
        dbUsers := mapUpdate st.dbUsers u.userId
          (fun d => { d with isOnline := false, lastSeen := t, socketId := none }) } := by
  simp [disconnect, h]

theorem registryAgrees_join (st : ServerState) (sid u un r : String) (t : Nat)
    (hu : u ≠ "") (hn : un ≠ "") (hfree : mapGet st.activeUsers sid = none)
    (hr : registryAgrees st) : registryAgrees (joinRoom st sid u un r t).1 := by
  intro c rr
  rw [joinRoom_valid_socketRooms st sid u un r t hu hn,
    joinRoom_valid_activeUsers st sid u un r t hu hn, mem_roomJoin]
  by_cases hc : c = sid
  · subst hc
    rw [mapGet_mapSet_self]
    constructor
    · rintro (hmem | ⟨-, hrr⟩)
      · obtain ⟨s, hs, -⟩ := (hr c rr).mp hmem
        rw [hfree] at hs
        exact absurd hs (by simp)
      · exact ⟨⟨u, un, r, t⟩, rfl, hrr.symm⟩
    · rintro ⟨s, hs, hrr⟩
      injection hs with hs'
      subst hs'
      exact Or.inr ⟨rfl, hrr.symm⟩
  · rw [mapGet_mapSet_ne st.activeUsers sid c _ hc]
    constructor
    · rintro (hmem | ⟨rfl, -⟩)
      · exact (hr c rr).mp hmem
      · exact absurd rfl hc
    · intro hs
      exact Or.inl ((hr c rr).mpr hs)

theorem registryAgrees_disc (st : ServerState) (sid : String) (t : Nat)
    (hr : registryAgrees st) : registryAgrees (disconnect st sid t).1 := by
  intro c rr
  cases h : mapGet st.activeUsers sid with
  | none =>
      rw [disconnect_fst_none st sid t h]
      show (c, rr) ∈ roomsLeaveAll st.socketRooms sid ↔
        ∃ s, mapGet st.activeUsers c = some s ∧ s.roomId = rr
      rw [mem_roomsLeaveAll]
      constructor
      · rintro ⟨hmem, -⟩
        exact (hr c rr).mp hmem
      · intro hs
        refine ⟨(hr c rr).mpr hs, ?_⟩
        rintro rfl
        obtain ⟨s, hs', -⟩ := hs
        rw [h] at hs'
        exact absurd hs' (by simp)
  | some u =>
      rw [disconnect_fst_some st sid t u h]
      show (c, rr) ∈ roomsLeaveAll st.socketRooms sid ↔
        ∃ s, mapGet (mapDelete st.activeUsers sid) c = some s ∧ s.roomId = rr
      rw [mem_roomsLeaveAll]
      by_cases hc : c = sid
      · subst hc
        rw [mapGet_mapDelete_self]
        simp
      · rw [mapGet_mapDelete_ne st.activeUsers sid c hc]
        constructor
        · rintro ⟨hmem, -⟩
          exact (hr c rr).mp hmem
        · intro hs
          exact ⟨(hr c rr).mpr hs, hc⟩

theorem okSeq_registryAgrees (st : ServerState) (evs : List ChatEvent)
    (hok : OkSeq st evs) : registryAgrees st → registryAgrees (run st evs) := by
  induction hok with
  | nil st1 => exact id
  | join st1 sid u un r t evs1 hu hn hfree htail ih =>
      intro hr1
      exact ih (registryAgrees_join st1 sid u un r t hu hn hfree hr1)
  | disc st1 sid t evs1 htail ih =>
      intro hr1
      exact ih (registryAgrees_disc st1 sid t hr1)

theorem registryAgrees_good (st : ServerState) (h : registryAgrees st) : goodRegistry st := by
  constructor
  · intro c r
    rw [mem_connsIn]
    exact h c r
  · intro c r r' h1 h2
    rw [mem_connsIn] at h1 h2
    obtain ⟨s, hs, hrr⟩ := (h c r).mp h1
    obtain ⟨s', hs', hrr'⟩ := (h c r').mp h2
    rw [hs] at hs'
    injection hs' with he
    subst he
    rw [← hrr, ← hrr']

/-- C1 (amended): along any sequence of join/disconnect events in
which every join lands on a connection without a live session, the
delivery target set of each room equals the set of connections whose
live session is in that room, and no connection is in two rooms'
target sets. (A join on a connection that already holds a session
breaks this: the old room membership is never left — see the
counterexample theorem.) -/
theorem joinDisconnect_no_drift (evs : List ChatEvent) (hok : OkSeq stEmpty evs) :
    goodRegistry (run stEmpty evs) :=
  registryAgrees_good _
    (okSeq_registryAgrees stEmpty evs hok (by intro c r; simp [stEmpty, mapGet]))

theorem joinDisconnect_no_drift_witness :
    OkSeq stEmpty evsOk ∧ goodRegistry (run stEmpty evsOk) := by
  have hok : OkSeq stEmpty evsOk := by
    refine OkSeq.join _ _ _ _ _ _ _ (by decide) (by decide) (by decide) ?_
    refine OkSeq.join _ _ _ _ _ _ _ (by decide) (by decide) (by decide) ?_
    exact OkSeq.disc _ _ _ _ (OkSeq.nil _)
  exact ⟨hok, joinDisconnect_no_drift evsOk hok⟩

/-- C1 (counterexample): connection c1 joins room A and then room B
without disconnecting; its live session is in B, yet c1 is still in
room A's delivery set and receives the broadcast of a message sent to
room A — contradicting the claim that it receives broadcasts for B
only and that membership equals the live-session set. -/
theorem double_join_breaks_registry :
    mapGet stDouble.activeUsers "c1" = some ⟨"u1", "alice", "B", 2⟩ ∧
    "c1" ∈ connsIn stDouble.socketRooms "A" ∧
    ("c1", OutEvent.receiveMessage "hello" "bob" "u2" 3 "text") ∈
      (sendMessage stDouble "c2" "hello" "text" 3).2 := by
  decide

end ChatFlow
